import Mathlib

/-!
Shallow embedding of the sharp-viewer backend:
`src/backend/ply_to_splat.py` (PLY → .splat conversion) and
`src/backend/main.py` (volume / growth analysis).

Modelling conventions.
* Bytes are `Nat` values; a little-endian float32 appears as its 4-byte chunk
  (`List Nat` of length 4).  Layout decisions in the code depend only on byte
  counts, never on float values, so chunks are kept uninterpreted.
* Numeric values flowing through the decode transforms are `ℚ`; the
  transcendental helpers of the code (`np.exp`, the logistic sigmoid, the
  quaternion L2 norm) are abstract function parameters, since the claims about
  them are structural (which branch runs, which defaults apply).
* Python exceptions are `Option`/`Except` failures; `f.read(n)` returns at
  most `n` bytes (`List.take`); `int(...)` truncates toward zero.
-/

namespace SharpViewer

/-- Split a list into `rows` consecutive rows of `cols` elements each
(`numpy.reshape` layout; short input yields short trailing rows). -/
def splitRows (rows cols : Nat) (xs : List α) : List (List α) :=
  match rows with
  | 0 => []
  | r + 1 => xs.take cols :: splitRows r cols (xs.drop cols)

/-- Model of `f.read(n)`: return at most `n` bytes from the stream (fewer at
EOF). -/
def fRead (n : Nat) (payload : List Nat) : List Nat :=
  payload.take n

/-- Model of `np.frombuffer(buf, dtype=np.float32)`: group the bytes into
4-byte float32 chunks; raises `ValueError` when the byte count is not a
multiple of the 4-byte item size. -/
def chunk4 (bs : List Nat) : Option (List (List Nat)) :=
  if bs.length % 4 = 0 then some (splitRows (bs.length / 4) 4 bs) else none

/-- Model of `arr.reshape(rows, cols)`: raises `ValueError` unless the
element count is exactly `rows * cols`. -/
def npReshape (rows cols : Nat) (xs : List α) : Option (List (List α)) :=
  if xs.length = rows * cols then some (splitRows rows cols xs) else none

/-- The `try`/`except ValueError` block of `convert_ply_to_splat`
(ply_to_splat.py lines 54-69): first try
`frombuffer(f.read(vertex_count*62*4)).reshape(vertex_count, 62)`; on
`ValueError` re-read the whole payload, infer
`floats_per_vertex = len(remaining) // (vertex_count*4)` and reshape as
`vertex_count × floats_per_vertex`.  `payload` is the byte stream that
follows the header. -/
def decodeVertexData (vertexCount : Nat) (payload : List Nat) :
    Option (List (List (List Nat))) :=
  match chunk4 (fRead (vertexCount * 62 * 4) payload) >>= npReshape vertexCount 62 with
  | some v => some v
  | none =>
    let floatsPerVertex := payload.length / (vertexCount * 4)
    chunk4 (fRead (vertexCount * floatsPerVertex * 4) payload) >>=
      npReshape vertexCount floatsPerVertex

/-! Header parsing (ply_to_splat.py lines 29-46). -/

/-- Accumulate the decimal digits of `cs` onto `acc`; `none` on a non-digit
(the failure of Python `int(...)`). -/
def digitsVal : List Char → Nat → Option Nat
  | [], acc => some acc
  | c :: rest, acc =>
    if c.isDigit then digitsVal rest (acc * 10 + (c.toNat - 48)) else none

/-- Model of Python `int(token)` on a whitespace-free token: optional sign
followed by at least one decimal digit. -/
def pyInt (cs : List Char) : Option Int :=
  match cs with
  | [] => none
  | c :: rest =>
    if c = '-' then
      match rest with
      | [] => none
      | _ => (digitsVal rest 0).map (fun n => -(n : Int))
    else if c = '+' then
      match rest with
      | [] => none
      | _ => (digitsVal rest 0).map (fun n => (n : Int))
    else (digitsVal cs 0).map (fun n => (n : Int))

/-- Model of Python `str.split()` (no argument): split on whitespace runs,
dropping empty tokens.  `cur` holds the current token reversed. -/
def tokensAux : List Char → List Char → List (List Char)
  | [], cur => if cur = [] then [] else [cur.reverse]
  | c :: rest, cur =>
    if c.isWhitespace then
      if cur = [] then tokensAux rest [] else cur.reverse :: tokensAux rest []
    else tokensAux rest (c :: cur)

/-- Model of Python `line.startswith(needle)`. -/
def pyStartsWith (needle hay : String) : Bool :=
  needle.data.isPrefixOf hay.data

/-- The vertex-count scan of `convert_ply_to_splat` (ply_to_splat.py lines
39-46): `vertex_count` starts at 0; the first header line starting with
`element vertex` sets it to `int(line.split()[-1])`; afterwards
`vertex_count == 0` raises `ValueError`.  A missing line and a parsed count
of zero therefore raise the same message; a non-integer trailing token makes
`int(...)` itself raise. -/
def parseVertexCount (lines : List String) : Except String Int :=
  match lines.find? (fun l => pyStartsWith "element vertex" l) with
  | none => Except.error "Could not determine vertex count from PLY header"
  | some l =>
    match (tokensAux l.data []).getLast? with
    | none => Except.error "IndexError: list index out of range"
    | some tok =>
      match pyInt tok with
      | none => Except.error "invalid literal for int() with base 10"
      | some n =>
        if n = 0 then
          Except.error "Could not determine vertex count from PLY header"
        else Except.ok n

/-! The header-accumulation loop (ply_to_splat.py lines 30-35). -/

/-- Substring containment, the model of Python `needle in line` on bytes. -/
def strContains (needle hay : List Char) : Bool :=
  (List.range (hay.length + 1)).any (fun i => needle.isPrefixOf (hay.drop i))

/-- Model of `f.readline()` on a file split into lines: past the end of the
file it returns the empty byte string forever. -/
def pyReadline (lines : List String) (i : Nat) : String :=
  lines.getD i ""

/-- Whether a line contains the `end_header` marker (`b'end_header' in line`). -/
def hasEndHeaderMarker (line : String) : Bool :=
  strContains "end_header".data line.data

/-- The `while True` header loop, given `fuel` iterations starting at line
index `i`: returns the number of lines consumed when the marker line is
found, `none` when the fuel runs out first.  The real loop has no fuel, so
exhausting every fuel bound means the program never exits the loop. -/
def readHeaderLoop (lines : List String) : Nat → Nat → Option Nat
  | 0, _ => none
  | fuel + 1, i =>
    if hasEndHeaderMarker (pyReadline lines i) then some (i + 1)
    else readHeaderLoop lines fuel (i + 1)

/-! Per-field decode transforms (ply_to_splat.py lines 71-105).  Row values
are rationals; `sigmoid`, `expf` and the quaternion normalizer `qnorm` are
abstract parameters, since the claims never evaluate them. -/

/-- The spherical-harmonic DC conversion constant `0.28209479177387814`. -/
def shC : ℚ := 28209479177387814 / 100000000000000000

/-- Model of `np.clip(x, 0, 1)`. -/
def clamp01 (x : ℚ) : ℚ :=
  min 1 (max 0 x)

/-- Position: `vertex_data[:, 0:3]` (may be shorter than 3 on narrow rows). -/
def decodePosition (row : List ℚ) : List ℚ :=
  row.take 3

/-- Color: SH DC slice `6:9` when the row has more than 8 columns, else the
constant `0.5` fallback. -/
def decodeColor (row : List ℚ) : List ℚ :=
  if row.length > 8 then ((row.drop 6).take 3).map (fun c => clamp01 (c * shC + 1/2))
  else [1/2, 1/2, 1/2]

/-- Opacity: sigmoid of column 54 when the row has more than 54 columns,
else the constant `0.8` fallback. -/
def decodeOpacity (sigmoid : ℚ → ℚ) (row : List ℚ) : ℚ :=
  if row.length > 54 then sigmoid (row.getD 54 0) else 4/5

/-- Scale: componentwise exp of slice `55:58` when the row has more than 57
columns, else the constant `0.01` fallback. -/
def decodeScale (expf : ℚ → ℚ) (row : List ℚ) : List ℚ :=
  if row.length > 57 then ((row.drop 55).take 3).map expf else [1/100, 1/100, 1/100]

/-- Rotation: slice `58:62` normalized by `rot / (norm(rot) + 1e-8)` when the
row has more than 61 columns, else the identity quaternion fallback. -/
def decodeRot (qnorm : List ℚ → List ℚ) (row : List ℚ) : List ℚ :=
  if row.length > 61 then qnorm ((row.drop 58).take 4) else [1, 0, 0, 0]

/-- One decoded splat: the per-field attributes extracted from a row. -/
structure DecodedSplat where
  position : List ℚ
  scale : List ℚ
  color : List ℚ
  opacity : ℚ
  rot : List ℚ

/-- Decode one row of the vertex table into a splat. -/
def decodeRowSplat (sigmoid expf : ℚ → ℚ) (qnorm : List ℚ → List ℚ)
    (row : List ℚ) : DecodedSplat :=
  { position := decodePosition row
    scale := decodeScale expf row
    color := decodeColor row
    opacity := decodeOpacity sigmoid row
    rot := decodeRot qnorm row }

/-! The .splat writer (ply_to_splat.py lines 114-135).  An IEEE float32 is
not representable here, so a packed float32 is a 4-byte output atom carrying
its rational value; the packed integer bytes are explicit. -/

/-- One atom of writer output: a packed little-endian float32 (4 bytes), an
unsigned byte from `struct.pack('B', ...)`, or a signed byte from
`struct.pack('b', ...)`. -/
inductive OutByteChunk where
  | f32 (x : ℚ)
  | u8 (n : Int)
  | i8 (n : Int)
deriving DecidableEq

/-- Byte width of one output atom. -/
def chunkBytes : OutByteChunk → Nat
  | .f32 _ => 4
  | .u8 _ => 1
  | .i8 _ => 1

/-- Total byte count of a writer output. -/
def outBytes (l : List OutByteChunk) : Nat :=
  (l.map chunkBytes).sum

/-- Model of Python `int(q)`: truncation toward zero. -/
def truncInt (q : ℚ) : Int :=
  q.num.tdiv q.den

/-- Model of `struct.pack('fff', *xs)`: requires exactly three values. -/
def packFFF (xs : List ℚ) : Option (List OutByteChunk) :=
  if xs.length = 3 then some (xs.map OutByteChunk.f32) else none

/-- Model of packing one `B` field: `struct.error` outside `0..255`. -/
def packUInt8 (n : Int) : Option OutByteChunk :=
  if 0 ≤ n ∧ n ≤ 255 then some (OutByteChunk.u8 n) else none

/-- Model of packing one `b` field: `struct.error` outside `-128..127`. -/
def packInt8 (n : Int) : Option OutByteChunk :=
  if -128 ≤ n ∧ n ≤ 127 then some (OutByteChunk.i8 n) else none

/-- Write one 32-byte record (the loop body of ply_to_splat.py lines
115-135): position floats, scale floats, RGBA bytes `int(value*255)`,
rotation bytes `int(component*127)`. -/
def writeSplat (s : DecodedSplat) : Option (List OutByteChunk) := do
  let pos ← packFFF s.position
  let sc ← packFFF s.scale
  let r ← packUInt8 (truncInt (s.color.getD 0 0 * 255))
  let g ← packUInt8 (truncInt (s.color.getD 1 0 * 255))
  let b ← packUInt8 (truncInt (s.color.getD 2 0 * 255))
  let a ← packUInt8 (truncInt (s.opacity * 255))
  let q0 ← packInt8 (truncInt (s.rot.getD 0 0 * 127))
  let q1 ← packInt8 (truncInt (s.rot.getD 1 0 * 127))
  let q2 ← packInt8 (truncInt (s.rot.getD 2 0 * 127))
  let q3 ← packInt8 (truncInt (s.rot.getD 3 0 * 127))
  return pos ++ sc ++ [r, g, b, a] ++ [q0, q1, q2, q3]

/-- Write every record in order, concatenating the bytes. -/
def writeSplats : List DecodedSplat → Option (List OutByteChunk)
  | [] => some []
  | s :: rest => do
    let b ← writeSplat s
    let bs ← writeSplats rest
    return b ++ bs

/-- The conversion path after the header: decode the payload layout,
interpret each float32 chunk through the valuation `val`, decode each row
into a splat and write the output records. -/
def convertPayload (val : List Nat → ℚ) (sigmoid expf : ℚ → ℚ)
    (qnorm : List ℚ → List ℚ) (vertexCount : Nat) (payload : List Nat) :
    Option (List OutByteChunk) := do
  let rows ← decodeVertexData vertexCount payload
  writeSplats (rows.map (fun r => decodeRowSplat sigmoid expf qnorm (r.map val)))

/-- Spec-side description of one 32-byte record, following the claim's
words: position as 3 float32, scale as 3 float32, colorRGBA as 4 uint8 via
value×255 truncated toward zero, rotation as 4 int8 via component×127
truncated independently. -/
def specSplatBytes (s : DecodedSplat) : List OutByteChunk :=
  s.position.map OutByteChunk.f32 ++ s.scale.map OutByteChunk.f32 ++
    [OutByteChunk.u8 (truncInt (s.color.getD 0 0 * 255)),
     OutByteChunk.u8 (truncInt (s.color.getD 1 0 * 255)),
     OutByteChunk.u8 (truncInt (s.color.getD 2 0 * 255)),
     OutByteChunk.u8 (truncInt (s.opacity * 255))] ++
    [OutByteChunk.i8 (truncInt (s.rot.getD 0 0 * 127)),
     OutByteChunk.i8 (truncInt (s.rot.getD 1 0 * 127)),
     OutByteChunk.i8 (truncInt (s.rot.getD 2 0 * 127)),
     OutByteChunk.i8 (truncInt (s.rot.getD 3 0 * 127))]

/-- Concatenate per-record outputs. -/
def bytesConcat (l : List (List OutByteChunk)) : List OutByteChunk :=
  l.foldr (fun a b => a ++ b) []

/-- A splat all of whose packed fields satisfy the `struct.pack` arity and
range checks, so the writer loop body succeeds on it. -/
def packableSplat (s : DecodedSplat) : Prop :=
  s.position.length = 3 ∧ s.scale.length = 3 ∧
    (∀ c ∈ [s.color.getD 0 0, s.color.getD 1 0, s.color.getD 2 0, s.opacity],
      0 ≤ truncInt (c * 255) ∧ truncInt (c * 255) ≤ 255) ∧
    (∀ q ∈ [s.rot.getD 0 0, s.rot.getD 1 0, s.rot.getD 2 0, s.rot.getD 3 0],
      -128 ≤ truncInt (q * 127) ∧ truncInt (q * 127) ≤ 127)

/-! The analysis path (main.py lines 245-313 and 315-349).  The plyfile
vertex table is the parsed per-vertex data; the Open3D outlier stage and the
scipy convex hull are abstract fallible stages, since the code treats them
as black boxes guarded by `try`/`except`. -/

/-- The vertex element of a parsed PLY file: positions plus the optional
`opacity` and `alpha` property columns. -/
structure PlyVertexData where
  xyz : List (ℚ × ℚ × ℚ)
  opacityField : Option (List ℚ)
  alphaField : Option (List ℚ)

/-- Opacity selection of `calculate_splat_volume` (main.py lines 269-282):
use the `opacity` property, applying the sigmoid to every value only when
some value is negative (the logit heuristic); else the `alpha` property;
else constant 1. -/
def chooseOpacity (sigmoid : ℚ → ℚ) (v : PlyVertexData) : List ℚ :=
  match v.opacityField with
  | some op => if op.any (fun x => decide (x < 0)) then op.map sigmoid else op
  | none =>
    match v.alphaField with
    | some al => al
    | none => List.replicate v.xyz.length 1

/-- The density filter `mask = opacity > opacity_threshold` (strict), kept
in input order (main.py lines 285-286). -/
def solidPoints (sigmoid : ℚ → ℚ) (v : PlyVertexData) (threshold : ℚ) :
    List (ℚ × ℚ × ℚ) :=
  (v.xyz.zip (chooseOpacity sigmoid v)).filterMap
    (fun po => if threshold < po.2 then some po.1 else none)

/-- The outlier-removal stage with its `try`/`except` guard (main.py lines
292-301): on any failure of the Open3D call, fall back to the unfiltered
points. -/
def cleanStage (outlier : List (ℚ × ℚ × ℚ) → Option (List (ℚ × ℚ × ℚ)))
    (pts : List (ℚ × ℚ × ℚ)) : List (ℚ × ℚ × ℚ) :=
  (outlier pts).getD pts

/-- Model of `calculate_splat_volume` (main.py lines 245-313), starting from
the parsed vertex table: density filter, guarded outlier removal, guarded
convex-hull volume; fewer than 4 points at either stage or a hull failure
yields volume 0. -/
def calculate_splat_volume (sigmoid : ℚ → ℚ)
    (outlier : List (ℚ × ℚ × ℚ) → Option (List (ℚ × ℚ × ℚ)))
    (hull : List (ℚ × ℚ × ℚ) → Option ℚ)
    (v : PlyVertexData) (threshold : ℚ) : ℚ :=
  let solid := solidPoints sigmoid v threshold
  if solid.length < 4 then 0
  else
    let clean := cleanStage outlier solid
    if clean.length < 4 then 0
    else (hull clean).getD 0

/-- The growth computation of `analyze_growth` (main.py lines 340-342):
`growth = 0.0`, overwritten by the percentage formula only when `vol1 > 0`. -/
def growthPercentage (vol1 vol2 : ℚ) : ℚ :=
  if vol1 > 0 then ((vol2 - vol1) / vol1) * 100 else 0

/-! Concrete sample inputs used by the witnesses. -/

/-- A packable sample splat with integral field values. -/
def sampleSplat : DecodedSplat :=
  { position := [0, 0, 0], scale := [1, 1, 1], color := [0, 0, 0],
    opacity := 1, rot := [1, 0, 0, 0] }

/-- A sample 9-column row. -/
def sampleRow9 : List ℚ :=
  [5, 6, 7, 0, 0, 0, 1, 2, 3]

/-- A sample scene with three points and no opacity or alpha property. -/
def sampleScene3 : PlyVertexData :=
  { xyz := [(0, 0, 0), (1, 0, 0), (0, 1, 0)], opacityField := none, alphaField := none }

/-- A sample scene with four points and no opacity or alpha property. -/
def sampleScene4 : PlyVertexData :=
  { xyz := [(0, 0, 0), (1, 0, 0), (0, 1, 0), (0, 0, 1)], opacityField := none,
    alphaField := none }

/-- Layout of a successful decode as row count plus per-row widths. -/
def decodedShape (o : Option (List (List (List Nat)))) : Option (Nat × List Nat) :=
  o.map (fun rows => (rows.length, rows.map List.length))

theorem splitRows_length (rows cols : Nat) (xs : List α) :
    (splitRows rows cols xs).length = rows := by
  induction rows generalizing xs with
  | zero => rfl
  | succ r ih => simp [splitRows, ih]

theorem splitRows_row_length (rows cols : Nat) (xs : List α)
    (h : xs.length = rows * cols) :
    ∀ r ∈ splitRows rows cols xs, r.length = cols := by
  induction rows generalizing xs with
  | zero => intro r hr; simp [splitRows] at hr
  | succ n ih =>
    intro r hr
    simp only [splitRows, List.mem_cons] at hr
    rcases hr with hr | hr
    · subst hr
      have hc : cols ≤ xs.length := by
        rw [h, Nat.succ_mul]; exact Nat.le_add_left _ _
      simp [List.length_take, Nat.min_eq_left hc]
    · refine ih (xs.drop cols) ?_ r hr
      have hc : cols ≤ xs.length := by
        rw [h, Nat.succ_mul]; exact Nat.le_add_left _ _
      simp [List.length_drop, h, Nat.succ_mul]

/-- Primary branch succeeds whenever the payload holds at least
`vertexCount*62*4` bytes: exactly that many bytes are read and reshaped. -/
theorem decodeVertexData_primary (vertexCount : Nat) (payload : List Nat)
    (h : vertexCount * 62 * 4 ≤ payload.length) :
    ∃ rows, decodeVertexData vertexCount payload = some rows ∧
      rows.length = vertexCount ∧ ∀ r ∈ rows, r.length = 62 := by
  have hlen : (fRead (vertexCount * 62 * 4) payload).length = vertexCount * 62 * 4 := by
    simp [fRead, List.length_take, Nat.min_eq_left h]
  have hmod : (fRead (vertexCount * 62 * 4) payload).length % 4 = 0 := by
    rw [hlen]; simp [Nat.mul_mod_left]
  have hdiv : (fRead (vertexCount * 62 * 4) payload).length / 4 = vertexCount * 62 := by
    rw [hlen]; omega
  have hchunk : chunk4 (fRead (vertexCount * 62 * 4) payload) =
      some (splitRows (vertexCount * 62) 4 (fRead (vertexCount * 62 * 4) payload)) := by
    rw [chunk4, if_pos hmod, hdiv]
  have hrlen : (splitRows (vertexCount * 62) 4 (fRead (vertexCount * 62 * 4) payload)).length
      = vertexCount * 62 := splitRows_length _ _ _
  refine ⟨splitRows vertexCount 62
      (splitRows (vertexCount * 62) 4 (fRead (vertexCount * 62 * 4) payload)), ?_, ?_, ?_⟩
  · rw [decodeVertexData, hchunk]
    simp [npReshape, hrlen]
  · exact splitRows_length _ _ _
  · exact splitRows_row_length _ _ _ hrlen

/-- Fallback branch runs whenever the payload is shorter than
`vertexCount*62*4` bytes: the primary reshape raises, and the payload is
reshaped as `vertexCount` rows of `payloadLength / (vertexCount*4)` floats. -/
theorem decodeVertexData_fallback (vertexCount : Nat) (payload : List Nat)
    (h : payload.length < vertexCount * 62 * 4) :
    ∃ rows, decodeVertexData vertexCount payload = some rows ∧
      rows.length = vertexCount ∧
      ∀ r ∈ rows, r.length = payload.length / (vertexCount * 4) := by
  have hread : fRead (vertexCount * 62 * 4) payload = payload := by
    simp [fRead, List.take_of_length_le (Nat.le_of_lt h)]
  have hprim : chunk4 (fRead (vertexCount * 62 * 4) payload) >>=
      npReshape vertexCount 62 = none := by
    rw [hread]
    by_cases hmod : payload.length % 4 = 0
    · have hne : payload.length / 4 ≠ vertexCount * 62 := by omega
      rw [chunk4, if_pos hmod]
      simp [npReshape, splitRows_length, hne]
    · rw [chunk4, if_neg hmod]
      rfl
  have hle : vertexCount * (payload.length / (vertexCount * 4)) * 4 ≤ payload.length := by
    calc vertexCount * (payload.length / (vertexCount * 4)) * 4
        = payload.length / (vertexCount * 4) * (vertexCount * 4) := by ring
    _ ≤ payload.length := Nat.div_mul_le_self _ _
  have hlen2 : (fRead (vertexCount * (payload.length / (vertexCount * 4)) * 4) payload).length
      = vertexCount * (payload.length / (vertexCount * 4)) * 4 := by
    simp [fRead, List.length_take, Nat.min_eq_left hle]
  have hmod2 : (fRead (vertexCount * (payload.length / (vertexCount * 4)) * 4) payload).length
      % 4 = 0 := by
    rw [hlen2]; simp [Nat.mul_mod_left]
  have hdiv2 : (fRead (vertexCount * (payload.length / (vertexCount * 4)) * 4) payload).length
      / 4 = vertexCount * (payload.length / (vertexCount * 4)) := by
    rw [hlen2]
    generalize vertexCount * (payload.length / (vertexCount * 4)) = m
    omega
  have hchunk2 : chunk4 (fRead (vertexCount * (payload.length / (vertexCount * 4)) * 4) payload)
      = some (splitRows (vertexCount * (payload.length / (vertexCount * 4))) 4
          (fRead (vertexCount * (payload.length / (vertexCount * 4)) * 4) payload)) := by
    rw [chunk4, if_pos hmod2, hdiv2]
  have hrlen2 : (splitRows (vertexCount * (payload.length / (vertexCount * 4))) 4
      (fRead (vertexCount * (payload.length / (vertexCount * 4)) * 4) payload)).length
      = vertexCount * (payload.length / (vertexCount * 4)) := splitRows_length _ _ _
  refine ⟨splitRows vertexCount (payload.length / (vertexCount * 4))
      (splitRows (vertexCount * (payload.length / (vertexCount * 4))) 4
        (fRead (vertexCount * (payload.length / (vertexCount * 4)) * 4) payload)), ?_, ?_, ?_⟩
  · rw [decodeVertexData, hprim]
    show chunk4 (fRead (vertexCount * (payload.length / (vertexCount * 4)) * 4) payload) >>=
        npReshape vertexCount (payload.length / (vertexCount * 4)) = _
    rw [hchunk2]
    simp [npReshape, hrlen2]
  · exact splitRows_length _ _ _
  · exact splitRows_row_length _ _ _ hrlen2

set_option maxRecDepth 40000 in
/-- C1: the claim says any payload whose byte length differs from
`recordCount×62×4` is decoded through the inferred-width fallback, giving an
inferred wider row for payloads wider than 62 floats per record.  False: for
one record and a 252-byte payload (63 floats), the byte length differs from
`1×62×4 = 248`, the inferred width would be `252/(1×4) = 63`, yet the primary
layout succeeds after reading only 248 bytes and the record is decoded with
62 columns. -/
theorem C1_counterexample :
    (252 : Nat) ≠ 1 * 62 * 4 ∧
    decodedShape (decodeVertexData 1 (List.replicate 252 0)) = some (1, [62]) ∧
    (252 : Nat) / (1 * 4) = 63 ∧
    decodedShape (decodeVertexData 1 (List.replicate 252 0)) ≠ some (1, [63]) := by
  refine ⟨by decide, by decide, by decide, by decide⟩

/-- C1 (amended): the inferred-width fallback runs exactly for payloads
shorter than `recordCount×62×4` bytes, reshaping them as `recordCount` rows
of `floor(payloadLength / (recordCount×4))` float32 values; a payload of at
least `recordCount×62×4` bytes (wider rows included) is decoded with the
primary 62-column layout and its trailing bytes are ignored. -/
theorem C1_decoder_layout (vertexCount : Nat) (payload : List Nat) :
    (vertexCount * 62 * 4 ≤ payload.length →
      decodedShape (decodeVertexData vertexCount payload) =
        some (vertexCount, List.replicate vertexCount 62)) ∧
    (payload.length < vertexCount * 62 * 4 →
      decodedShape (decodeVertexData vertexCount payload) =
        some (vertexCount, List.replicate vertexCount
          (payload.length / (vertexCount * 4)))) := by
  constructor
  · intro h
    obtain ⟨rows, hd, hlen, hw⟩ := decodeVertexData_primary vertexCount payload h
    rw [decodedShape, hd, Option.map_some']
    refine congrArg some (Prod.ext hlen ?_)
    refine List.eq_replicate_iff.2 ⟨by simp [hlen], ?_⟩
    intro b hb
    obtain ⟨r, hr, rfl⟩ := List.mem_map.1 hb
    exact hw r hr
  · intro h
    obtain ⟨rows, hd, hlen, hw⟩ := decodeVertexData_fallback vertexCount payload h
    rw [decodedShape, hd, Option.map_some']
    refine congrArg some (Prod.ext hlen ?_)
    refine List.eq_replicate_iff.2 ⟨by simp [hlen], ?_⟩
    intro b hb
    obtain ⟨r, hr, rfl⟩ := List.mem_map.1 hb
    exact hw r hr

/-- C1 witness: a 12-byte payload for one record is shorter than 248 bytes,
so it decodes through the fallback as one row of `12/(1*4) = 3` floats. -/
theorem C1_decoder_layout_witness :
    decodedShape (decodeVertexData 1 (List.replicate 12 0)) =
      some (1, List.replicate 1 (12 / (1 * 4))) :=
  (C1_decoder_layout 1 (List.replicate 12 0)).2 (by decide)

/-- The writer loop body fails (`struct.error`) whenever the position slice
does not hold exactly three values. -/
theorem writeSplat_position_arity (s : DecodedSplat) (h : s.position.length ≠ 3) :
    writeSplat s = none := by
  simp [writeSplat, packFFF, h]

/-- C2: the claim says decoding raises a format error whenever the inferred
floatsPerRecord is below 3 and never silently proceeds with fewer than 3
columns.  False: for one record and an 8-byte payload, the inferred width is
2 and the decoder succeeds, returning one row of 2 columns with no error of
any kind. -/
theorem C2_counterexample :
    decodedShape (decodeVertexData 1 (List.replicate 8 0)) = some (1, [2]) ∧
    (2 : Nat) < 3 :=
  ⟨by decide, by decide⟩

/-- C2 (amended): the decoder has no minimum-width guard and raises no
format error: for any record count ≥ 1 and payload shorter than
`recordCount×62×4` bytes whose inferred floatsPerRecord is below 3, decoding
silently succeeds with that narrow row width, and the conversion fails later,
in the writer, where packing a position of fewer than 3 floats raises. -/
theorem C2_no_minimum_width_guard (val : List Nat → ℚ) (sigmoid expf : ℚ → ℚ)
    (qnorm : List ℚ → List ℚ) (vertexCount : Nat) (payload : List Nat)
    (hc : 0 < vertexCount)
    (hlt : payload.length < vertexCount * 62 * 4)
    (hn : payload.length / (vertexCount * 4) < 3) :
    decodedShape (decodeVertexData vertexCount payload) =
      some (vertexCount, List.replicate vertexCount
        (payload.length / (vertexCount * 4))) ∧
    convertPayload val sigmoid expf qnorm vertexCount payload = none := by
  obtain ⟨rows, hd, hlen, hw⟩ := decodeVertexData_fallback vertexCount payload hlt
  constructor
  · rw [decodedShape, hd, Option.map_some']
    refine congrArg some (Prod.ext hlen (List.eq_replicate_iff.2 ⟨by simp [hlen], ?_⟩))
    intro b hb
    obtain ⟨r, hr, rfl⟩ := List.mem_map.1 hb
    exact hw r hr
  · cases rows with
    | nil =>
      rw [List.length_nil] at hlen
      omega
    | cons r0 rest =>
      have hr0 : r0.length = payload.length / (vertexCount * 4) :=
        hw r0 (List.mem_cons_self _ _)
      have hpos : (decodeRowSplat sigmoid expf qnorm (r0.map val)).position.length ≠ 3 := by
        simp only [decodeRowSplat, decodePosition, List.length_take, List.length_map, hr0]
        omega
      simp [convertPayload, hd, writeSplats, writeSplat_position_arity _ hpos]

/-- C2 witness: one record, 4-byte payload, inferred width 1: decode
succeeds with a 1-column row and the conversion fails in the writer. -/
theorem C2_no_minimum_width_guard_witness :
    decodedShape (decodeVertexData 1 (List.replicate 4 0)) =
      some (1, List.replicate 1 (4 / (1 * 4))) ∧
    convertPayload (fun _ => 0) (fun x => x) (fun x => x) (fun l => l) 1
      (List.replicate 4 0) = none :=
  C2_no_minimum_width_guard (fun _ => 0) (fun x => x) (fun x => x) (fun l => l) 1
    (List.replicate 4 0) (by decide) (by decide) (by decide)

/-- C3: the volume computation is total and returns exactly 0 when fewer
than 4 points survive the density filter, when fewer than 4 points survive
outlier removal, or when convex-hull construction fails on the cleaned
point set. -/
theorem C3_volume_degenerate_zero (sigmoid : ℚ → ℚ)
    (outlier : List (ℚ × ℚ × ℚ) → Option (List (ℚ × ℚ × ℚ)))
    (hull : List (ℚ × ℚ × ℚ) → Option ℚ) (v : PlyVertexData) (threshold : ℚ) :
    ((solidPoints sigmoid v threshold).length < 4 →
      calculate_splat_volume sigmoid outlier hull v threshold = 0) ∧
    ((cleanStage outlier (solidPoints sigmoid v threshold)).length < 4 →
      calculate_splat_volume sigmoid outlier hull v threshold = 0) ∧
    (hull (cleanStage outlier (solidPoints sigmoid v threshold)) = none →
      calculate_splat_volume sigmoid outlier hull v threshold = 0) := by
  refine ⟨fun h => ?_, fun h => ?_, fun h => ?_⟩ <;>
    · simp only [calculate_splat_volume]
      split_ifs <;> simp_all

/-- C3 witness: three points all passing the filter are still fewer than 4,
so the volume is 0. -/
theorem C3_volume_degenerate_zero_witness :
    calculate_splat_volume (fun x => x) (fun _ => none) (fun _ => none)
      sampleScene3 0 = 0 :=
  (C3_volume_degenerate_zero (fun x => x) (fun _ => none) (fun _ => none)
    sampleScene3 0).1 (by decide)

/-- C4: for non-negative volumes the growth percentage is exactly 0 when the
first volume is 0 and `(vol2 - vol1) / vol1 * 100` otherwise, as a pure
function of the two volumes (rational arithmetic: no NaN or infinity). -/
theorem C4_growth_percentage (vol1 vol2 : ℚ) (h : 0 ≤ vol1) :
    (vol1 = 0 → growthPercentage vol1 vol2 = 0) ∧
    (vol1 ≠ 0 → growthPercentage vol1 vol2 = ((vol2 - vol1) / vol1) * 100) := by
  constructor
  · intro h0
    simp [growthPercentage, h0]
  · intro h0
    have hpos : 0 < vol1 := lt_of_le_of_ne h (Ne.symm h0)
    simp [growthPercentage, hpos]

/-- C4 witness: growth is 0 at first volume 0, and follows the percentage
formula at volumes 2 and 3. -/
theorem C4_growth_percentage_witness :
    growthPercentage 0 5 = 0 ∧ growthPercentage 2 3 = ((3 - 2) / 2) * 100 :=
  ⟨(C4_growth_percentage 0 5 le_rfl).1 rfl,
   (C4_growth_percentage 2 3 (by norm_num)).2 (by norm_num)⟩

/-- C5: the claim says the opacity compared against the threshold is always
`logistic(rawLogit)`, a scalar in `[0,1]`.  False: when no stored raw value
is negative the heuristic skips the sigmoid entirely — for a scene whose
stored opacity column is `[3]`, the compared value is the raw `3` (for any
sigmoid whatsoever), which lies outside `[0,1]`, while a logistic output
never exceeds 1. -/
theorem C5_counterexample :
    chooseOpacity (fun _ => 1) ⟨[(0, 0, 0)], some [3], none⟩ = [3] ∧
    ¬ ((3 : ℚ) ≤ 1) :=
  ⟨rfl, by norm_num⟩

/-- C5 (amended): the opacity column is passed through the sigmoid — hence
lands in `[0,1]` — exactly when at least one stored raw value is negative;
when every stored value is non-negative, the raw values are compared against
the threshold unchanged. -/
theorem C5_opacity_heuristic (sigmoid : ℚ → ℚ) (v : PlyVertexData) (op : List ℚ)
    (hop : v.opacityField = some op)
    (hsig : ∀ x, 0 ≤ sigmoid x ∧ sigmoid x ≤ 1) :
    (op.any (fun x => decide (x < 0)) = true →
      chooseOpacity sigmoid v = op.map sigmoid ∧
        ∀ o ∈ chooseOpacity sigmoid v, 0 ≤ o ∧ o ≤ 1) ∧
    (op.any (fun x => decide (x < 0)) = false →
      chooseOpacity sigmoid v = op) := by
  constructor
  · intro hneg
    have he : chooseOpacity sigmoid v = op.map sigmoid := by
      simp [chooseOpacity, hop, hneg]
    refine ⟨he, ?_⟩
    rw [he]
    intro o ho
    obtain ⟨x, _, rfl⟩ := List.mem_map.1 ho
    exact hsig x
  · intro hneg
    simp [chooseOpacity, hop, hneg]

/-- C5 witness: a stored opacity column `[-1]` has a negative value, so the
compared opacities are the sigmoid images of the raw values. -/
theorem C5_opacity_heuristic_witness :
    chooseOpacity (fun _ => 1) ⟨[(0, 0, 0)], some [-1], none⟩ =
      [(-1 : ℚ)].map (fun _ => 1) :=
  ((C5_opacity_heuristic (fun _ => 1) ⟨[(0, 0, 0)], some [-1], none⟩ [(-1 : ℚ)] rfl
    (fun _ => by norm_num)).1 (by decide)).1

/-- A packable splat is written as exactly the spec-described byte sequence. -/
theorem writeSplat_packable (s : DecodedSplat) (h : packableSplat s) :
    writeSplat s = some (specSplatBytes s) := by
  obtain ⟨hp, hs, hc, hr⟩ := h
  have hc0 := hc (s.color.getD 0 0) (by simp)
  have hc1 := hc (s.color.getD 1 0) (by simp)
  have hc2 := hc (s.color.getD 2 0) (by simp)
  have hc3 := hc s.opacity (by simp)
  have hr0 := hr (s.rot.getD 0 0) (by simp)
  have hr1 := hr (s.rot.getD 1 0) (by simp)
  have hr2 := hr (s.rot.getD 2 0) (by simp)
  have hr3 := hr (s.rot.getD 3 0) (by simp)
  simp only [List.getD_eq_getElem?_getD] at hc0 hc1 hc2 hc3 hr0 hr1 hr2 hr3
  simp [writeSplat, packFFF, packUInt8, packInt8, hp, hs,
    hc0.1, hc0.2, hc1.1, hc1.2, hc2.1, hc2.2, hc3.1, hc3.2,
    hr0.1, hr0.2, hr1.1, hr1.2, hr2.1, hr2.2, hr3.1, hr3.2, specSplatBytes]

/-- Packed float32 lists contribute 4 bytes per value. -/
theorem sum_map_f32 (l : List ℚ) :
    (l.map (chunkBytes ∘ OutByteChunk.f32)).sum = 4 * l.length := by
  induction l with
  | nil => rfl
  | cons x xs ih =>
    simp only [List.map_cons, List.sum_cons, ih, List.length_cons,
      Function.comp_apply, chunkBytes]
    ring

/-- Byte counts add over concatenation. -/
theorem outBytes_append (a b : List OutByteChunk) :
    outBytes (a ++ b) = outBytes a + outBytes b := by
  simp [outBytes, List.map_append, List.sum_append]

/-- A record with 3 position floats and 3 scale floats is exactly 32 bytes:
12 + 12 + 4 + 4. -/
theorem outBytes_specSplatBytes (s : DecodedSplat) (hp : s.position.length = 3)
    (hs : s.scale.length = 3) : outBytes (specSplatBytes s) = 32 := by
  simp [specSplatBytes, outBytes_append, outBytes, sum_map_f32, hp, hs, chunkBytes,
    List.map_map]

/-- C6: for every sequence of packable decoded splats the writer succeeds and
emits, per splat, position as 3 float32, scale as 3 float32, colorRGBA as 4
uint8 via value×255 truncated toward zero, rotation as 4 int8 via
component×127 truncated independently, in that order — 32 bytes per record,
`32×recordCount` bytes in total. -/
theorem C6_writer_layout (splats : List DecodedSplat)
    (hok : ∀ s ∈ splats, packableSplat s) :
    writeSplats splats = some (bytesConcat (splats.map specSplatBytes)) ∧
    outBytes (bytesConcat (splats.map specSplatBytes)) = 32 * splats.length := by
  induction splats with
  | nil => exact ⟨rfl, rfl⟩
  | cons s rest ih =>
    have hs := hok s (List.mem_cons_self _ _)
    obtain ⟨ih1, ih2⟩ := ih (fun t ht => hok t (List.mem_cons_of_mem _ ht))
    refine ⟨?_, ?_⟩
    · simp [writeSplats, writeSplat_packable s hs, ih1, bytesConcat]
    · calc outBytes (bytesConcat ((s :: rest).map specSplatBytes))
          = outBytes (specSplatBytes s) +
              outBytes (bytesConcat (rest.map specSplatBytes)) := by
            simp [bytesConcat, outBytes_append]
        _ = 32 + 32 * rest.length := by
            rw [outBytes_specSplatBytes s hs.1 hs.2.1, ih2]
        _ = 32 * (s :: rest).length := by
            simp [List.length_cons]
            ring

/-- The sample splat satisfies the pack arity and range checks. -/
theorem packableSplat_sample : packableSplat sampleSplat := by
  refine ⟨rfl, rfl, ?_, ?_⟩
  · intro c hc
    rw [show [sampleSplat.color.getD 0 0, sampleSplat.color.getD 1 0,
        sampleSplat.color.getD 2 0, sampleSplat.opacity] = [0, 0, 0, 1] from rfl] at hc
    simp only [List.mem_cons, List.not_mem_nil, or_false] at hc
    rcases hc with rfl | rfl | rfl | rfl <;> norm_num [truncInt]
  · intro q hq
    rw [show [sampleSplat.rot.getD 0 0, sampleSplat.rot.getD 1 0,
        sampleSplat.rot.getD 2 0, sampleSplat.rot.getD 3 0] = [1, 0, 0, 0] from rfl] at hq
    simp only [List.mem_cons, List.not_mem_nil, or_false] at hq
    rcases hq with rfl | rfl | rfl | rfl <;> norm_num [truncInt]

/-- C6 witness: the sample splat is packable, so a one-splat sequence writes
to exactly the described 32 bytes. -/
theorem C6_writer_layout_witness :
    writeSplats [sampleSplat] = some (bytesConcat ([sampleSplat].map specSplatBytes)) ∧
    outBytes (bytesConcat ([sampleSplat].map specSplatBytes)) = 32 * [sampleSplat].length :=
  C6_writer_layout [sampleSplat] (by
    intro s hs
    rw [List.mem_singleton] at hs
    subst hs
    exact packableSplat_sample)

/-- C7: each per-field transform requires its column threshold (9 for
color, 55 for opacity, 58 for scale, 62 for rotation), so a 9-column record
gets real color `clamp(columns[6:9]×shC+0.5, 0, 1)` together with default
opacity `0.8`, default scale `(0.01, 0.01, 0.01)` and the default identity
rotation `(1, 0, 0, 0)`. -/
theorem C7_column_fallback (sigmoid expf : ℚ → ℚ) (qnorm : List ℚ → List ℚ)
    (row : List ℚ) (h9 : row.length = 9) :
    decodeColor row = ((row.drop 6).take 3).map (fun c => clamp01 (c * shC + 1/2)) ∧
    decodeOpacity sigmoid row = 4/5 ∧
    decodeScale expf row = [1/100, 1/100, 1/100] ∧
    decodeRot qnorm row = [1, 0, 0, 0] := by
  refine ⟨?_, ?_, ?_, ?_⟩
  · rw [decodeColor, if_pos (by omega)]
  · rw [decodeOpacity, if_neg (by omega)]
  · rw [decodeScale, if_neg (by omega)]
  · rw [decodeRot, if_neg (by omega)]

/-- C7 witness: the transforms evaluated on the sample 9-column row. -/
theorem C7_column_fallback_witness :
    decodeColor sampleRow9 =
      ((sampleRow9.drop 6).take 3).map (fun c => clamp01 (c * shC + 1/2)) ∧
    decodeOpacity (fun x => x) sampleRow9 = 4/5 ∧
    decodeScale (fun x => x) sampleRow9 = [1/100, 1/100, 1/100] ∧
    decodeRot (fun l => l) sampleRow9 = [1, 0, 0, 0] :=
  C7_column_fallback (fun x => x) (fun x => x) (fun l => l) sampleRow9 rfl

/-- C8: the claim says a successful header parse accepts only record counts
greater than 0.  False: the code only rejects a count of exactly zero, so
the header line `element vertex -5` parses successfully to the negative
count −5. -/
theorem C8_counterexample :
    parseVertexCount ["element vertex -5"] = Except.ok (-5) ∧ ¬ (0 < (-5 : Int)) :=
  ⟨rfl, by decide⟩

/-- C8 (amended): the scan fails with the format error when no line starts
with the record-count declaration or when the parsed trailing token is zero,
and every record count accepted by a successful parse is a nonzero integer
(possibly negative). -/
theorem C8_header_count (lines : List String) :
    (lines.find? (fun l => pyStartsWith "element vertex" l) = none →
      parseVertexCount lines =
        Except.error "Could not determine vertex count from PLY header") ∧
    (∀ l, lines.find? (fun l2 => pyStartsWith "element vertex" l2) = some l →
      ∀ tok, (tokensAux l.data []).getLast? = some tok → pyInt tok = some 0 →
        parseVertexCount lines =
          Except.error "Could not determine vertex count from PLY header") ∧
    (∀ n, parseVertexCount lines = Except.ok n → n ≠ 0) := by
  refine ⟨?_, ?_, ?_⟩
  · intro h
    rw [parseVertexCount, h]
  · intro l hl tok htok h0
    simp [parseVertexCount, hl, htok, h0]
  · intro n hn
    intro hn0
    subst hn0
    rcases hfind : lines.find? (fun l => pyStartsWith "element vertex" l) with _ | l
    · rw [parseVertexCount, hfind] at hn
      exact Except.noConfusion hn
    · rcases htok : (tokensAux l.data []).getLast? with _ | tok
      · simp [parseVertexCount, hfind, htok] at hn
      · rcases hpi : pyInt tok with _ | m
        · simp [parseVertexCount, hfind, htok, hpi] at hn
        · by_cases hm : m = 0
          · simp [parseVertexCount, hfind, htok, hpi, hm] at hn
          · simp [parseVertexCount, hfind, htok, hpi, hm] at hn

/-- C8 witness: a header with no record-count line fails with the format
error. -/
theorem C8_header_count_witness :
    parseVertexCount ["ply"] =
      Except.error "Could not determine vertex count from PLY header" :=
  (C8_header_count ["ply"]).1 (by decide)

/-- C9: when the outlier-removal stage fails, the pipeline keeps the
unfiltered density-filtered points and continues to the hull stage on them. -/
theorem C9_outlier_fail_open (sigmoid : ℚ → ℚ)
    (outlier : List (ℚ × ℚ × ℚ) → Option (List (ℚ × ℚ × ℚ)))
    (hull : List (ℚ × ℚ × ℚ) → Option ℚ) (v : PlyVertexData) (threshold : ℚ)
    (hfail : outlier (solidPoints sigmoid v threshold) = none) :
    cleanStage outlier (solidPoints sigmoid v threshold) =
      solidPoints sigmoid v threshold ∧
    calculate_splat_volume sigmoid outlier hull v threshold =
      (if (solidPoints sigmoid v threshold).length < 4 then 0
       else (hull (solidPoints sigmoid v threshold)).getD 0) := by
  have hclean : cleanStage outlier (solidPoints sigmoid v threshold) =
      solidPoints sigmoid v threshold := by
    rw [cleanStage, hfail]
    rfl
  refine ⟨hclean, ?_⟩
  simp only [calculate_splat_volume, hclean]
  split_ifs <;> rfl

/-- C9 witness: an always-failing outlier stage on the four-point sample
scene leaves all four points in place, and the hull stage runs on them. -/
theorem C9_outlier_fail_open_witness :
    cleanStage (fun _ => none) (solidPoints (fun x => x) sampleScene4 0) =
      solidPoints (fun x => x) sampleScene4 0 ∧
    calculate_splat_volume (fun x => x) (fun _ => none) (fun _ => some 7)
      sampleScene4 0 =
      (if (solidPoints (fun x => x) sampleScene4 0).length < 4 then 0
       else ((fun _ => some (7 : ℚ)) (solidPoints (fun x => x) sampleScene4 0)).getD 0) :=
  C9_outlier_fail_open (fun x => x) (fun _ => none) (fun _ => some 7) sampleScene4 0 rfl

/-- C10: if no line of the file contains the `end_header` marker, the header
loop never exits: at end of file `readline()` returns empty bytes forever,
and every fuel bound is exhausted with the loop still running — it
terminates only when a marker line is present. -/
theorem C10_header_nontermination (lines : List String)
    (h : ∀ l ∈ lines, hasEndHeaderMarker l = false) :
    ∀ fuel i, readHeaderLoop lines fuel i = none := by
  intro fuel
  induction fuel with
  | zero => intro i; rfl
  | succ n ih =>
    intro i
    have hline : hasEndHeaderMarker (pyReadline lines i) = false := by
      rw [pyReadline]
      rcases Nat.lt_or_ge i lines.length with hi | hi
      · rw [List.getD_eq_getElem lines "" hi]
        exact h _ (List.getElem_mem hi)
      · rw [List.getD_eq_default lines "" hi]
        decide
    simp only [readHeaderLoop, hline, Bool.false_eq_true, if_false]
    exact ih (i + 1)

/-- C10 witness: a two-line file without the marker makes no progress in
five loop iterations. -/
theorem C10_header_nontermination_witness :
    readHeaderLoop ["ply", "element vertex 4"] 5 0 = none :=
  C10_header_nontermination ["ply", "element vertex 4"] (by decide) 5 0

end SharpViewer
